import Mathlib

/-
Verification of the factory-class CRUD generator.

The program (src/app/crud_generator.py, src/models/base.py) generates CRUD
HTTP endpoints for SQLAlchemy models.  We embed the data model shallowly:

* a database row is an association list from column names to values
  (mirroring `BaseModel.to_dict`, which maps every column name to its value);
* a database table is a list of rows; SQLAlchemy's `query(...).filter(p).first()`
  becomes "first row of the list satisfying p", `offset/limit` become
  `drop/take`;
* the ORM session's commit/rollback on `IntegrityError` is modelled by a
  predicate `integrityOk` on the candidate post-commit table: when it fails,
  the operation rolls back, i.e. returns the original table;
* the database engine's assignment of the autoincrement primary key is
  modelled by an explicit `idVal` parameter to `create_item`, and the
  application of column defaults at INSERT time by `instantiate`.
-/

namespace Crud

/-- A column value: integers, strings, booleans or SQL NULL. -/
inductive Value where
  | vInt (n : Int) : Value
  | vStr (s : String) : Value
  | vBool (b : Bool) : Value
  | vNull : Value
deriving DecidableEq, Repr

/-- A row is the dictionary of its columns, exactly as produced by
`BaseModel.to_dict` (src/models/base.py lines 22-27). -/
abbrev Row := List (String × Value)

/-- First binding of a key in an association list (Python attribute read). -/
def lookupKey {α : Type} (k : String) : List (String × α) → Option α
  | [] => none
  | (k', v) :: rest => if k' = k then some v else lookupKey k rest

/-- Python `setattr`: replace the first binding of the key (objects of this
ORM always carry all their column attributes; if the key is absent we append,
though the generator only ever sets keys guarded by `hasattr`). -/
def setattrRow (r : Row) (k : String) (v : Value) : Row :=
  match r with
  | [] => [(k, v)]
  | (k', v') :: rest => if k' = k then (k, v) :: rest else (k', v') :: setattrRow rest k v

/-- Python `hasattr` on a row object, restricted to its column attributes. -/
def hasattrRow (r : Row) (k : String) : Bool :=
  (lookupKey k r).isSome

/-- The `id` column of a row. -/
def rowId (r : Row) : Option Value :=
  lookupKey "id" r

/-- The SQL filter `model_class.is_active`: the boolean column is TRUE. -/
def rowActive (r : Row) : Bool :=
  decide (lookupKey "is_active" r = some (Value.vBool true))

/-- The SQL filter `model_class.id == item_id, model_class.is_active` used by
get/update/delete (src/app/crud_generator.py lines 68-71, 82-85, 105-108). -/
def matchesActive (item_id : Int) (r : Row) : Bool :=
  decide (rowId r = some (Value.vInt item_id)) && rowActive r

/-- Whether a row's `id` column equals the given identifier. -/
def sameId (item_id : Int) (r : Row) : Bool :=
  decide (rowId r = some (Value.vInt item_id))

/-- `BaseModel.soft_delete` (src/models/base.py lines 29-31): set `is_active`
to False. -/
def soft_delete (r : Row) : Row :=
  setattrRow r "is_active" (Value.vBool false)

/-- `BaseModel.to_dict`: on our representation a row already is its column
dictionary. -/
def to_dict (r : Row) : List (String × Value) :=
  r

/-- A database table: the list of its rows. -/
abbrev Database := List Row

/-- `query(model).filter(p).first()`: the first row satisfying `p`. -/
def firstMatch (p : Row → Bool) : Database → Option Row
  | [] => none
  | r :: rs => if p r then some r else firstMatch p rs

/-- Mutating the first row satisfying `p` in place (the ORM object returned
by `.first()` is the row stored in the table; committing persists the
mutation). -/
def updateFirst (p : Row → Bool) (f : Row → Row) : Database → Database
  | [] => []
  | r :: rs => if p r then f r :: rs else r :: updateFirst p f rs

/-- The row at a given position of a table, if any. -/
def nthRow : Database → Nat → Option Row
  | [], _ => none
  | r :: _, 0 => some r
  | _ :: rs, n + 1 => nthRow rs n

/-- The update loop of `update_item` (src/app/crud_generator.py lines 89-91):
for each key/value pair, set the attribute only when the object has the
attribute and the key is not `id`. -/
def applyUpdates (r : Row) (item_data : List (String × Value)) : Row :=
  item_data.foldl
    (fun acc kv =>
      if hasattrRow acc kv.1 && decide (kv.1 ≠ "id") then setattrRow acc kv.1 kv.2 else acc)
    r

/-- `get_item` (src/app/crud_generator.py lines 66-71): first active row with
the requested id. -/
def get_item (db : Database) (item_id : Int) : Option Row :=
  firstMatch (matchesActive item_id) db

/-- Default `skip` of `get_items` (src/app/crud_generator.py line 73). -/
def crudDefaultSkip : Nat := 0

/-- Default `limit` of `get_items` (src/app/crud_generator.py line 73). -/
def crudDefaultLimit : Nat := 100

/-- `get_items` (src/app/crud_generator.py lines 73-77): active rows, then
`offset(skip).limit(limit)`. -/
def get_items (db : Database) (skip limit : Nat) : List Row :=
  ((db.filter rowActive).drop skip).take limit

/-- Outcome of `update_item`: row not found (returns None), IntegrityError
(rolls back and raises 400), or the refreshed updated row. -/
inductive UpdateOutcome where
  | notFound : UpdateOutcome
  | integrityViolation : UpdateOutcome
  | updated (r : Row) : UpdateOutcome
deriving DecidableEq, Repr

/-- `update_item` (src/app/crud_generator.py lines 79-101): find the first
active row with the id; if none, return None; else apply the guarded update
loop and commit, rolling back on IntegrityError. -/
def update_item (integrityOk : Database → Bool) (db : Database) (item_id : Int)
    (item_data : List (String × Value)) : Database × UpdateOutcome :=
  match firstMatch (matchesActive item_id) db with
  | none => (db, UpdateOutcome.notFound)
  | some r =>
    let db2 := updateFirst (matchesActive item_id) (fun s => applyUpdates s item_data) db
    if integrityOk db2 then (db2, UpdateOutcome.updated (applyUpdates r item_data))
    else (db, UpdateOutcome.integrityViolation)

/-- `delete_item` (src/app/crud_generator.py lines 103-114): find the first
active row with the id; if none, return False; else soft-delete it, commit,
and return True. -/
def delete_item (db : Database) (item_id : Int) : Database × Bool :=
  match firstMatch (matchesActive item_id) db with
  | none => (db, false)
  | some _ => (updateFirst (matchesActive item_id) soft_delete db, true)

/-- SQLAlchemy column metadata as read by the generator: the column name,
its `type.python_type` (with a flag for types where that property raises
NotImplementedError), its `nullable` flag, and its `default`
(outer `none` = `column.default is None`; inner value `none` = a default
object without an `arg` attribute). -/
structure Column where
  name : String
  pythonType : String
  typeImplemented : Bool
  nullable : Bool
  defaultArg : Option (Option Value)
deriving DecidableEq, Repr

/-- The `python_type` computation with its `except NotImplementedError`
fallback to `str` (src/app/crud_generator.py lines 23-26). -/
def pythonTypeOf (c : Column) : String :=
  if c.typeImplemented then c.pythonType else "str"

/-- A derived pydantic field default: the `...` required marker, `None`, or a
concrete default value. -/
inductive FieldDefault where
  | required : FieldDefault
  | defNone : FieldDefault
  | value (v : Value) : FieldDefault
deriving DecidableEq, Repr

/-- A derived pydantic field: whether the type is wrapped in `Optional`, the
underlying Python type, and the field default. -/
structure FieldSpec where
  isOptional : Bool
  baseType : String
  fieldDefault : FieldDefault
deriving DecidableEq, Repr

/-- Per-column body of `create_pydantic_model`
(src/app/crud_generator.py lines 23-41): a nullable non-id column becomes
`Optional` with default None; otherwise a column with a default object gets
that object's `arg` (or None when it has no `arg`); otherwise the `id`
column is skipped; every other column is required. -/
def deriveField (c : Column) : Option (String × FieldSpec) :=
  if c.nullable && decide (c.name ≠ "id") then
    some (c.name, ⟨true, pythonTypeOf c, FieldDefault.defNone⟩)
  else
    match c.defaultArg with
    | some (some v) => some (c.name, ⟨false, pythonTypeOf c, FieldDefault.value v⟩)
    | some none => some (c.name, ⟨false, pythonTypeOf c, FieldDefault.defNone⟩)
    | none =>
      if c.name = "id" then none
      else some (c.name, ⟨false, pythonTypeOf c, FieldDefault.required⟩)

/-- `create_pydantic_model` (src/app/crud_generator.py lines 10-43): one
derived field per table column not in `exclude_fields`. -/
def create_pydantic_model (cols : List Column) (exclude_fields : List String) :
    List (String × FieldSpec) :=
  cols.filterMap (fun c => if c.name ∈ exclude_fields then none else deriveField c)

/-- The exclusion list used for both the create and the update schema
(src/app/crud_generator.py lines 131-132). -/
def baseExclude : List String := ["id", "created_at", "updated_at", "is_active"]

/-- The value a column takes in a freshly inserted row: the DB-assigned id
for the primary key, else the value supplied in `item_data`, else the column
default, else NULL (`model_class(**item_data)` followed by INSERT). -/
def columnValue (c : Column) (idVal : Int) (item_data : List (String × Value)) : Value :=
  if c.name = "id" then Value.vInt idVal
  else
    match lookupKey c.name item_data with
    | some v => v
    | none =>
      match c.defaultArg with
      | some (some v) => v
      | _ => Value.vNull

/-- The row produced by `model_class(**item_data)` once inserted and
refreshed: one value per column. -/
def instantiate (cols : List Column) (idVal : Int) (item_data : List (String × Value)) : Row :=
  cols.map (fun c => (c.name, columnValue c idVal item_data))

/-- Outcome of `create_item`: IntegrityError (rollback, 400) or the
committed, refreshed row. -/
inductive CreateOutcome where
  | integrityViolation : CreateOutcome
  | created (r : Row) : CreateOutcome
deriving DecidableEq, Repr

/-- `create_item` (src/app/crud_generator.py lines 51-64): construct the row,
add and commit; on IntegrityError roll back and raise 400. -/
def create_item (cols : List Column) (integrityOk : Database → Bool) (idVal : Int)
    (db : Database) (item_data : List (String × Value)) : Database × CreateOutcome :=
  let r := instantiate cols idVal item_data
  let db2 := db ++ [r]
  if integrityOk db2 then (db2, CreateOutcome.created r)
  else (db, CreateOutcome.integrityViolation)

/-- An HTTP response of a generated endpoint: a body, or an HTTPException
with a status code. -/
inductive Response (α : Type) where
  | ok (body : α) : Response α
  | error (statusCode : Nat) : Response α
deriving DecidableEq, Repr

/-- The GET-by-id endpoint (src/app/crud_generator.py lines 150-163): 404
when `get_item` returns nothing, else the item's dictionary. -/
def get_endpoint (db : Database) (item_id : Int) : Response (List (String × Value)) :=
  match get_item db item_id with
  | none => Response.error 404
  | some r => Response.ok (to_dict r)

/-- Default `skip` of the list endpoint (src/app/crud_generator.py line 167). -/
def endpointDefaultSkip : Nat := 0

/-- Default `limit` of the list endpoint (src/app/crud_generator.py line 168). -/
def endpointDefaultLimit : Nat := 100

/-- The list endpoint (src/app/crud_generator.py lines 165-174): the
dictionaries of the paginated active rows. -/
def get_all_endpoint (db : Database) (skip limit : Nat) :
    Response (List (List (String × Value))) :=
  Response.ok ((get_items db skip limit).map to_dict)

/-- The PUT endpoint (src/app/crud_generator.py lines 176-191): 404 when
`update_item` returns nothing, 400 on IntegrityError, else the updated
item's dictionary. -/
def update_endpoint (integrityOk : Database → Bool) (db : Database) (item_id : Int)
    (item_data : List (String × Value)) : Database × Response (List (String × Value)) :=
  match update_item integrityOk db item_id item_data with
  | (db2, UpdateOutcome.notFound) => (db2, Response.error 404)
  | (db2, UpdateOutcome.integrityViolation) => (db2, Response.error 400)
  | (db2, UpdateOutcome.updated r) => (db2, Response.ok (to_dict r))

/-- The DELETE endpoint (src/app/crud_generator.py lines 193-206): 404 when
`delete_item` returns False, else a success message. -/
def delete_endpoint (model_name : String) (db : Database) (item_id : Int) :
    Database × Response String :=
  match delete_item db item_id with
  | (db2, false) => (db2, Response.error 404)
  | (db2, true) => (db2, Response.ok (model_name ++ " deleted successfully"))

/-- The POST endpoint (src/app/crud_generator.py lines 139-148, with the 400
raised from `create_item`): the created item's dictionary, or 400 on
IntegrityError. -/
def create_endpoint (cols : List Column) (integrityOk : Database → Bool) (idVal : Int)
    (db : Database) (item_data : List (String × Value)) :
    Database × Response (List (String × Value)) :=
  match create_item cols integrityOk idVal db item_data with
  | (db2, CreateOutcome.integrityViolation) => (db2, Response.error 400)
  | (db2, CreateOutcome.created r) => (db2, Response.ok (to_dict r))

/-- The five kinds of generated endpoints. -/
inductive CrudOp where
  | createOp : CrudOp
  | getOneOp : CrudOp
  | getAllOp : CrudOp
  | updateOp : CrudOp
  | deleteOp : CrudOp
deriving DecidableEq, Repr

/-- One route registration: HTTP method, path, bound CRUD closure, tag. -/
structure Route where
  method : String
  path : String
  op : CrudOp
  tag : String
deriving DecidableEq, Repr

/-- The `\x7bitem_id\x7d` path parameter segment of item routes. -/
def idSegment : String := "\x7bitem_id\x7d"

/-- Python's `model_name.lower()` on the (ASCII) model class name:
lowercase every character. -/
def lowerString (s : String) : String :=
  String.mk (s.data.map Char.toLower)

/-- The registrations performed for one model
(src/app/crud_generator.py lines 137, 208-226), in source order: POST and
GET on the collection path, GET/PUT/DELETE on the item path, all under
`/` + lowercased model name. -/
def routesForModel (model_name : String) : List Route :=
  let basePath := "/" ++ lowerString model_name
  [ ⟨"POST", basePath ++ "/", CrudOp.createOp, model_name⟩,
    ⟨"GET", basePath ++ "/" ++ idSegment, CrudOp.getOneOp, model_name⟩,
    ⟨"GET", basePath ++ "/", CrudOp.getAllOp, model_name⟩,
    ⟨"PUT", basePath ++ "/" ++ idSegment, CrudOp.updateOp, model_name⟩,
    ⟨"DELETE", basePath ++ "/" ++ idSegment, CrudOp.deleteOp, model_name⟩ ]

/-- `generate_crud_routes` (src/app/crud_generator.py lines 125-228): the
route registrations for all discovered models, in order. -/
def generate_crud_routes (models : List String) : List Route :=
  models.flatMap routesForModel

/-! ### Concrete column metadata of the repository's models

The four base columns come from src/models/base.py lines 12-15; the
`Product` columns from src/models/product.py.  The concrete value stored in
`created_at`/`updated_at` defaults (a fixed `datetime.now()` evaluated at
class-definition time) is opaque; we represent it by a string tag. -/

/-- The `id` primary-key column (src/models/base.py line 12). -/
def idColumn : Column := ⟨"id", "int", true, false, none⟩

/-- The `created_at` column (src/models/base.py line 13). -/
def createdAtColumn : Column := ⟨"created_at", "datetime", true, false, some (some (Value.vStr "now"))⟩

/-- The `updated_at` column (src/models/base.py line 14). -/
def updatedAtColumn : Column := ⟨"updated_at", "datetime", true, false, some (some (Value.vStr "now"))⟩

/-- The `is_active` column, default True (src/models/base.py line 15). -/
def isActiveColumn : Column := ⟨"is_active", "bool", true, false, some (some (Value.vBool true))⟩

/-- The columns of the `Product` model (src/models/product.py). -/
def productColumns : List Column :=
  [idColumn, createdAtColumn, updatedAtColumn, isActiveColumn,
   ⟨"external_id", "int", true, false, none⟩,
   ⟨"name", "str", true, false, none⟩,
   ⟨"label", "LabelEnum", true, false, none⟩,
   ⟨"description", "str", true, false, none⟩]

/-- A sample active product row, used in witnesses. -/
def sampleRow : Row :=
  [("id", Value.vInt 1), ("created_at", Value.vStr "now"), ("updated_at", Value.vStr "now"),
   ("is_active", Value.vBool true), ("external_id", Value.vInt 7),
   ("name", Value.vStr "widget"), ("label", Value.vStr "A"), ("description", Value.vStr "d")]

/-- A sample soft-deleted product row, used in witnesses. -/
def sampleInactiveRow : Row :=
  [("id", Value.vInt 2), ("created_at", Value.vStr "now"), ("updated_at", Value.vStr "now"),
   ("is_active", Value.vBool false), ("external_id", Value.vInt 8),
   ("name", Value.vStr "gadget"), ("label", Value.vStr "B"), ("description", Value.vStr "e")]

/-- A sample table holding one inactive and one active row. -/
def sampleDb : Database := [sampleInactiveRow, sampleRow]

/-! ### Association-list lemmas -/

theorem lookupKey_setattrRow_self (r : Row) (k : String) (v : Value) :
    lookupKey k (setattrRow r k v) = some v := by
  induction r with
  | nil => simp [setattrRow, lookupKey]
  | cons hd tl ih =>
    obtain ⟨k0, v0⟩ := hd
    by_cases h : k0 = k
    · simp [setattrRow, h, lookupKey]
    · simp [setattrRow, h, lookupKey, ih]

theorem lookupKey_setattrRow_ne (r : Row) (k k' : String) (v : Value) (h : k' ≠ k) :
    lookupKey k' (setattrRow r k v) = lookupKey k' r := by
  have hk'k : ¬ k = k' := Ne.symm h
  induction r with
  | nil => simp [setattrRow, lookupKey, hk'k]
  | cons hd tl ih =>
    obtain ⟨k0, v0⟩ := hd
    by_cases hk : k0 = k
    · subst hk
      simp [setattrRow, lookupKey, hk'k]
    · by_cases hk' : k0 = k'
      · simp [setattrRow, hk, lookupKey, hk', h]
      · simp [setattrRow, hk, lookupKey, hk', ih]

theorem lookupKey_eq_none_of_not_mem {α : Type} (l : List (String × α)) (k : String)
    (h : k ∉ l.map Prod.fst) : lookupKey k l = none := by
  induction l with
  | nil => rfl
  | cons hd tl ih =>
    obtain ⟨k0, v0⟩ := hd
    simp only [List.map_cons, List.mem_cons] at h
    push_neg at h
    have hk : ¬ k0 = k := fun he => h.1 he.symm
    simp only [lookupKey, if_neg hk]
    exact ih h.2

theorem lookupKey_of_nodup_mem {α : Type} (l : List (String × α)) (k : String) (v : α)
    (hnd : (l.map Prod.fst).Nodup) (hm : (k, v) ∈ l) : lookupKey k l = some v := by
  induction l with
  | nil => cases hm
  | cons hd tl ih =>
    simp only [List.map_cons, List.nodup_cons] at hnd
    rcases List.mem_cons.mp hm with h | h
    · subst h
      simp [lookupKey]
    · have hne : hd.1 ≠ k := by
        intro he
        exact hnd.1 (he ▸ List.mem_map.mpr ⟨(k, v), h, rfl⟩)
      simp only [lookupKey, if_neg hne]
      exact ih hnd.2 h

/-! ### firstMatch / updateFirst / nthRow lemmas -/

theorem firstMatch_eq_none_iff (p : Row → Bool) (l : Database) :
    firstMatch p l = none ↔ ∀ s ∈ l, p s = false := by
  induction l with
  | nil => simp [firstMatch]
  | cons hd tl ih =>
    by_cases h : p hd = true
    · simp [firstMatch, h]
    · have hf : p hd = false := by simpa using h
      simp [firstMatch, h, ih, hf]

theorem firstMatch_some (p : Row → Bool) (l : Database) (r : Row)
    (h : firstMatch p l = some r) :
    p r = true ∧ ∃ pre post, l = pre ++ r :: post ∧ (∀ s ∈ pre, p s = false) ∧
      ∀ f, updateFirst p f l = pre ++ f r :: post := by
  induction l with
  | nil => cases h
  | cons hd tl ih =>
    by_cases hp : p hd = true
    · simp only [firstMatch, hp, if_true, Option.some.injEq] at h
      subst h
      exact ⟨hp, [], tl, rfl, by simp, fun f => by simp [updateFirst, hp]⟩
    · simp only [firstMatch, hp, if_false, Bool.false_eq_true] at h
      obtain ⟨hpr, pre, post, hl, hpre, hup⟩ := ih h
      refine ⟨hpr, hd :: pre, post, by simp [hl], ?_, ?_⟩
      · intro s hs
        rcases List.mem_cons.mp hs with hs | hs
        · exact hs ▸ (by simpa using hp)
        · exact hpre s hs
      · intro f
        simp [updateFirst, hp, hup f]

theorem updateFirst_eq_of_none (p : Row → Bool) (f : Row → Row) (l : Database)
    (h : firstMatch p l = none) : updateFirst p f l = l := by
  induction l with
  | nil => rfl
  | cons hd tl ih =>
    by_cases hp : p hd = true
    · simp [firstMatch, hp] at h
    · simp only [firstMatch, hp, if_false, Bool.false_eq_true] at h
      simp [updateFirst, hp, ih h]

theorem firstMatch_append_of_none (p : Row → Bool) (l1 l2 : Database)
    (h : ∀ s ∈ l1, p s = false) :
    firstMatch p (l1 ++ l2) = firstMatch p l2 := by
  induction l1 with
  | nil => rfl
  | cons hd tl ih =>
    have hhd : p hd = false := h hd (List.mem_cons_self hd tl)
    simp only [List.cons_append, firstMatch, hhd, Bool.false_eq_true, if_false]
    exact ih (fun s hs => h s (List.mem_cons_of_mem hd hs))

theorem nthRow_middle_eq (pre : Database) (r : Row) (post : Database) :
    nthRow (pre ++ r :: post) pre.length = some r := by
  induction pre with
  | nil => rfl
  | cons hd tl ih => simpa [nthRow] using ih

theorem nthRow_middle_ne (pre : Database) (r r' : Row) (post : Database) (j : Nat)
    (h : j ≠ pre.length) :
    nthRow (pre ++ r' :: post) j = nthRow (pre ++ r :: post) j := by
  induction pre generalizing j with
  | nil =>
    cases j with
    | zero => exact absurd rfl h
    | succ n => rfl
  | cons hd tl ih =>
    cases j with
    | zero => rfl
    | succ n =>
      simp only [nthRow, List.cons_append]
      exact ih n (fun he => h (by simp [he]))

theorem nthRow_mem (l : Database) (j : Nat) (s : Row) (h : nthRow l j = some s) : s ∈ l := by
  induction l generalizing j with
  | nil => cases h
  | cons hd tl ih =>
    cases j with
    | zero =>
      simp only [nthRow, Option.some.injEq] at h
      exact h ▸ List.mem_cons_self hd tl
    | succ n => exact List.mem_cons_of_mem hd (ih n h)

theorem nthRow_take (l : Database) (m n : Nat) :
    nthRow (l.take m) n = if n < m then nthRow l n else none := by
  induction l generalizing m n with
  | nil => simp [nthRow]
  | cons hd tl ih =>
    cases m with
    | zero => simp [nthRow]
    | succ m' =>
      cases n with
      | zero => simp [nthRow]
      | succ n' => simpa [nthRow, Nat.succ_lt_succ_iff] using ih m' n'

theorem nthRow_drop (l : Database) (s n : Nat) :
    nthRow (l.drop s) n = nthRow l (s + n) := by
  induction l generalizing s with
  | nil => simp [nthRow]
  | cons hd tl ih =>
    cases s with
    | zero => simp
    | succ s' =>
      simpa [nthRow, Nat.succ_add] using ih s'

/-! ### applyUpdates lemmas -/

theorem applyUpdates_lookup_id (r : Row) (data : List (String × Value)) :
    lookupKey "id" (applyUpdates r data) = lookupKey "id" r := by
  induction data generalizing r with
  | nil => rfl
  | cons kv rest ih =>
    obtain ⟨k0, v0⟩ := kv
    simp only [applyUpdates, List.foldl_cons] at ih ⊢
    by_cases hg : (hasattrRow r k0 && decide (k0 ≠ "id")) = true
    · have hne : k0 ≠ "id" := of_decide_eq_true (Bool.and_elim_right hg)
      simp only [hg, if_true]
      rw [ih, lookupKey_setattrRow_ne r k0 "id" v0 (Ne.symm hne)]
    · simp only [hg, if_false]
      exact ih r

theorem applyUpdates_lookup_not_mem (r : Row) (data : List (String × Value)) (k : String)
    (h : k ∉ data.map Prod.fst) :
    lookupKey k (applyUpdates r data) = lookupKey k r := by
  induction data generalizing r with
  | nil => rfl
  | cons kv rest ih =>
    obtain ⟨k0, v0⟩ := kv
    simp only [List.map_cons, List.mem_cons] at h
    push_neg at h
    simp only [applyUpdates, List.foldl_cons] at ih ⊢
    by_cases hg : (hasattrRow r k0 && decide (k0 ≠ "id")) = true
    · simp only [hg, if_true]
      rw [ih _ h.2, lookupKey_setattrRow_ne r k0 k v0 h.1]
    · simp only [hg, if_false]
      exact ih r h.2

theorem applyUpdates_lookup_none (r : Row) (data : List (String × Value)) (k : String)
    (h : lookupKey k r = none) :
    lookupKey k (applyUpdates r data) = none := by
  induction data generalizing r with
  | nil => exact h
  | cons kv rest ih =>
    obtain ⟨k0, v0⟩ := kv
    simp only [applyUpdates, List.foldl_cons] at ih ⊢
    by_cases hk0 : k0 = k
    · subst hk0
      have : hasattrRow r k0 = false := by simp [hasattrRow, h]
      simp only [this, Bool.false_and, Bool.false_eq_true, if_false]
      exact ih r h
    · by_cases hg : (hasattrRow r k0 && decide (k0 ≠ "id")) = true
      · simp only [hg, if_true]
        exact ih _ (by rw [lookupKey_setattrRow_ne r k0 k v0 (Ne.symm hk0)]; exact h)
      · simp only [hg, if_false]
        exact ih r h

theorem applyUpdates_lookup_applied (r : Row) (data : List (String × Value)) (k : String)
    (v : Value) (hnd : (data.map Prod.fst).Nodup) (hm : (k, v) ∈ data) (hid : k ≠ "id")
    (hattr : hasattrRow r k = true) :
    lookupKey k (applyUpdates r data) = some v := by
  induction data generalizing r with
  | nil => cases hm
  | cons kv rest ih =>
    obtain ⟨k0, v0⟩ := kv
    simp only [List.map_cons, List.nodup_cons] at hnd
    simp only [applyUpdates, List.foldl_cons] at ih ⊢
    rcases List.mem_cons.mp hm with hh | hh
    · injection hh with hk hv
      subst hk
      subst hv
      have hg : (hasattrRow r k && decide (k ≠ "id")) = true := by
        simp [hattr, hid]
      simp only [hg, if_true]
      have hrest : k ∉ rest.map Prod.fst := hnd.1
      calc lookupKey k (applyUpdates (setattrRow r k v) rest)
          = lookupKey k (setattrRow r k v) := by
            simpa [applyUpdates] using
              applyUpdates_lookup_not_mem (setattrRow r k v) rest k hrest
        _ = some v := lookupKey_setattrRow_self r k v
    · have hk0 : k0 ≠ k := by
        intro he
        exact hnd.1 (he ▸ List.mem_map.mpr ⟨(k, v), hh, rfl⟩)
      by_cases hg : (hasattrRow r k0 && decide (k0 ≠ "id")) = true
      · simp only [hg, if_true]
        refine ih _ hnd.2 hh ?_
        simp only [hasattrRow, lookupKey_setattrRow_ne r k0 k v0 (Ne.symm hk0)]
        exact hattr
      · have hg' : (hasattrRow r k0 && decide (k0 ≠ "id")) = false := by simpa using hg
        rw [hg']
        simp only [Bool.false_eq_true, if_false]
        exact ih r hnd.2 hh hattr

/-! ### Operation-level helper lemmas -/

theorem matchesActive_eq (item_id : Int) (r : Row) :
    matchesActive item_id r = (sameId item_id r && rowActive r) := rfl

theorem matchesActive_false_of_inactive (item_id : Int) (r : Row)
    (h : rowActive r = false) : matchesActive item_id r = false := by
  rw [matchesActive_eq, h, Bool.and_false]

theorem nthRow_updateFirst_of_inactive (item_id : Int) (f : Row → Row) (db : Database)
    (j : Nat) (s : Row) (hj : nthRow db j = some s) (hs : rowActive s = false) :
    nthRow (updateFirst (matchesActive item_id) f db) j = some s := by
  cases hfm : firstMatch (matchesActive item_id) db with
  | none =>
    rw [updateFirst_eq_of_none _ _ _ hfm]
    exact hj
  | some r =>
    obtain ⟨hpr, pre, post, hdb, hpre, hup⟩ := firstMatch_some _ _ _ hfm
    rw [hup f]
    have hactive : rowActive r = true := Bool.and_elim_right hpr
    have hj_ne : j ≠ pre.length := by
      intro he
      rw [he, hdb, nthRow_middle_eq] at hj
      injection hj with h2
      rw [h2, hs] at hactive
      cases hactive
    rw [nthRow_middle_ne pre r (f r) post j hj_ne, ← hdb]
    exact hj

theorem update_item_db_cases (integrityOk : Database → Bool) (db : Database) (item_id : Int)
    (item_data : List (String × Value)) :
    (update_item integrityOk db item_id item_data).1 = db ∨
    (update_item integrityOk db item_id item_data).1 =
      updateFirst (matchesActive item_id) (fun s => applyUpdates s item_data) db := by
  cases hfm : firstMatch (matchesActive item_id) db with
  | none =>
    simp only [update_item, hfm]
    exact Or.inl trivial
  | some r =>
    by_cases hok : integrityOk (updateFirst (matchesActive item_id)
        (fun s => applyUpdates s item_data) db) = true
    · simp only [update_item, hfm, hok, if_true]
      exact Or.inr trivial
    · have hok' : integrityOk (updateFirst (matchesActive item_id)
          (fun s => applyUpdates s item_data) db) = false := by simpa using hok
      simp only [update_item, hfm, hok', Bool.false_eq_true, if_false]
      exact Or.inl trivial

theorem delete_item_db_cases (db : Database) (item_id : Int) :
    (delete_item db item_id).1 = db ∨
    (delete_item db item_id).1 = updateFirst (matchesActive item_id) soft_delete db := by
  cases hfm : firstMatch (matchesActive item_id) db with
  | none =>
    simp only [delete_item, hfm]
    exact Or.inl trivial
  | some r =>
    simp only [delete_item, hfm]
    exact Or.inr trivial

/-! ### Claim theorems -/

/-- C1: for every entity type and every identifier, the generated read
(get by id), list (get_all), update and delete operations only see rows whose
`is_active` flag is true: a row with `is_active = false` is never returned by
get or get_all, is never modified by update or delete, and when every row
carrying the requested id is inactive, update and delete treat the id as
nonexistent. -/
theorem get_update_delete_see_only_active (db : Database) (item_id : Int)
    (item_data : List (String × Value)) (skip limit : Nat) (integrityOk : Database → Bool) :
    (∀ r, get_item db item_id = some r → rowActive r = true) ∧
    (∀ r, r ∈ get_items db skip limit → rowActive r = true) ∧
    (∀ j s, nthRow db j = some s → rowActive s = false →
      nthRow (update_item integrityOk db item_id item_data).1 j = some s ∧
      nthRow (delete_item db item_id).1 j = some s) ∧
    ((∀ s ∈ db, sameId item_id s = true → rowActive s = false) →
      update_item integrityOk db item_id item_data = (db, UpdateOutcome.notFound) ∧
      delete_item db item_id = (db, false)) := by
  refine ⟨?_, ?_, ?_, ?_⟩
  · intro r hr
    exact Bool.and_elim_right (firstMatch_some _ _ _ hr).1
  · intro r hr
    have h1 : r ∈ db.filter rowActive :=
      List.drop_subset _ _ (List.take_subset _ _ hr)
    exact (List.mem_filter.mp h1).2
  · intro j s hj hs
    constructor
    · rcases update_item_db_cases integrityOk db item_id item_data with h | h
      · rw [h]; exact hj
      · rw [h]; exact nthRow_updateFirst_of_inactive item_id _ db j s hj hs
    · rcases delete_item_db_cases db item_id with h | h
      · rw [h]; exact hj
      · rw [h]; exact nthRow_updateFirst_of_inactive item_id _ db j s hj hs
  · intro hall
    have hnone : firstMatch (matchesActive item_id) db = none := by
      rw [firstMatch_eq_none_iff]
      intro s hsmem
      rw [matchesActive_eq]
      cases hsid : sameId item_id s with
      | false => simp
      | true => simp [hall s hsmem hsid]
    constructor
    · simp only [update_item, hnone]
    · simp only [delete_item, hnone]

/-- Witness for C1 at a concrete table: the inactive sample row is untouched
by update and delete, and a get only ever returns active rows. -/
theorem get_update_delete_see_only_active_witness :
    rowActive sampleInactiveRow = false ∧
    nthRow (update_item (fun _ => true) sampleDb 1 [("name", Value.vStr "new")]).1 0 =
      some sampleInactiveRow ∧
    nthRow (delete_item sampleDb 1).1 0 = some sampleInactiveRow := by
  have h := get_update_delete_see_only_active sampleDb 1 [("name", Value.vStr "new")]
    0 100 (fun _ => true)
  have h3 := h.2.2.1 0 sampleInactiveRow (by decide) (by decide)
  exact ⟨by decide, h3.1, h3.2⟩

/-- C2: a successful delete keeps the row in storage: it flips exactly that
row's `is_active` field to false, leaves every other field of that row
unchanged, leaves every other row unchanged (the table decomposes around the
deleted row), and preserves the number of rows. -/
theorem delete_soft_frame (db : Database) (item_id : Int)
    (hsucc : (delete_item db item_id).2 = true) :
    ∃ pre r post,
      db = pre ++ r :: post ∧
      matchesActive item_id r = true ∧
      (∀ s ∈ pre, matchesActive item_id s = false) ∧
      (delete_item db item_id).1 = pre ++ soft_delete r :: post ∧
      lookupKey "is_active" (soft_delete r) = some (Value.vBool false) ∧
      (∀ k, k ≠ "is_active" → lookupKey k (soft_delete r) = lookupKey k r) ∧
      ((delete_item db item_id).1).length = db.length := by
  cases hfm : firstMatch (matchesActive item_id) db with
  | none => simp [delete_item, hfm] at hsucc
  | some r =>
    obtain ⟨hpr, pre, post, hdb, hpre, hup⟩ := firstMatch_some _ _ _ hfm
    refine ⟨pre, r, post, hdb, hpr, hpre, ?_, ?_, ?_, ?_⟩
    · simp only [delete_item, hfm]
      exact hup soft_delete
    · exact lookupKey_setattrRow_self r "is_active" (Value.vBool false)
    · intro k hk
      exact lookupKey_setattrRow_ne r "is_active" k (Value.vBool false) hk
    · have : (delete_item db item_id).1 = pre ++ soft_delete r :: post := by
        simp only [delete_item, hfm]
        exact hup soft_delete
      rw [this, hdb]
      simp

/-- Witness for C2: deleting the active sample row with id 1. -/
theorem delete_soft_frame_witness :
    (delete_item sampleDb 1).2 = true ∧
    ∃ pre r post,
      sampleDb = pre ++ r :: post ∧
      matchesActive 1 r = true ∧
      (∀ s ∈ pre, matchesActive 1 s = false) ∧
      (delete_item sampleDb 1).1 = pre ++ soft_delete r :: post ∧
      lookupKey "is_active" (soft_delete r) = some (Value.vBool false) ∧
      (∀ k, k ≠ "is_active" → lookupKey k (soft_delete r) = lookupKey k r) ∧
      ((delete_item sampleDb 1).1).length = sampleDb.length :=
  ⟨by decide, delete_soft_frame sampleDb 1 (by decide)⟩

/-- C3 counterexample: the claim "succeed with the item otherwise" fails on
PUT.  With one active row of id 1 present (so an active row with the
requested id exists), a PUT whose commit raises an IntegrityError responds
400, not success. -/
theorem endpoints_success_counterexample :
    get_item sampleDb 1 = some sampleRow ∧
    (update_endpoint (fun _ => false) sampleDb 1 [("name", Value.vStr "dup")]).2 =
      Response.error 400 := by
  decide

/-- C3 (amended): if no active row with the requested id exists, the
GET-by-id, PUT and DELETE endpoints each fail with HTTP 404; otherwise
GET-by-id and DELETE succeed, and PUT succeeds with the updated item
provided the commit raises no IntegrityError (in which case it responds
400, as in C4). -/
theorem endpoints_not_found_vs_success (integrityOk : Database → Bool) (db : Database)
    (item_id : Int) (item_data : List (String × Value)) (model_name : String) :
    (get_item db item_id = none →
      get_endpoint db item_id = Response.error 404 ∧
      (update_endpoint integrityOk db item_id item_data).2 = Response.error 404 ∧
      (delete_endpoint model_name db item_id).2 = Response.error 404) ∧
    (∀ r, get_item db item_id = some r →
      get_endpoint db item_id = Response.ok (to_dict r) ∧
      (delete_endpoint model_name db item_id).2 =
        Response.ok (model_name ++ " deleted successfully") ∧
      ((update_endpoint integrityOk db item_id item_data).2 = Response.error 400 ∨
        (update_endpoint integrityOk db item_id item_data).2 =
          Response.ok (to_dict (applyUpdates r item_data))) ∧
      (integrityOk (updateFirst (matchesActive item_id)
          (fun s => applyUpdates s item_data) db) = true →
        (update_endpoint integrityOk db item_id item_data).2 =
          Response.ok (to_dict (applyUpdates r item_data)))) := by
  constructor
  · intro h
    have h' : firstMatch (matchesActive item_id) db = none := h
    refine ⟨?_, ?_, ?_⟩
    · simp only [get_endpoint, get_item, h']
    · simp only [update_endpoint, update_item, h']
    · simp only [delete_endpoint, delete_item, h']
  · intro r h
    have h' : firstMatch (matchesActive item_id) db = some r := h
    refine ⟨?_, ?_, ?_, ?_⟩
    · simp only [get_endpoint, get_item, h']
    · simp only [delete_endpoint, delete_item, h']
    · by_cases hok : integrityOk (updateFirst (matchesActive item_id)
          (fun s => applyUpdates s item_data) db) = true
      · right
        simp only [update_endpoint, update_item, h', hok, if_true]
      · left
        have hok' : integrityOk (updateFirst (matchesActive item_id)
            (fun s => applyUpdates s item_data) db) = false := by simpa using hok
        simp only [update_endpoint, update_item, h', hok', Bool.false_eq_true, if_false]
    · intro hok
      simp only [update_endpoint, update_item, h', hok, if_true]

/-- Witness for the amended C3: the empty table yields 404 on all three
endpoints; the sample table yields success on GET. -/
theorem endpoints_not_found_vs_success_witness :
    get_item ([] : Database) 1 = none ∧
    get_endpoint ([] : Database) 1 = Response.error 404 ∧
    (update_endpoint (fun _ => true) ([] : Database) 1 []).2 = Response.error 404 ∧
    (delete_endpoint "Product" ([] : Database) 1).2 = Response.error 404 ∧
    get_item sampleDb 1 = some sampleRow ∧
    get_endpoint sampleDb 1 = Response.ok (to_dict sampleRow) := by
  have h1 := endpoints_not_found_vs_success (fun _ => true) ([] : Database) 1 [] "Product"
  have h2 := endpoints_not_found_vs_success (fun _ => true) sampleDb 1 [] "Product"
  refine ⟨by decide, ?_, ?_, ?_, by decide, ?_⟩
  · exact (h1.1 (by decide)).1
  · exact (h1.1 (by decide)).2.1
  · exact (h1.1 (by decide)).2.2
  · exact (h2.2 sampleRow (by decide)).1

/-- C4: when the database reports an integrity-constraint violation, create
and update respond HTTP 400 and roll the transaction back, leaving the table
exactly as it was; on success the committed row is returned. -/
theorem integrity_rollback_and_commit (cols : List Column) (integrityOk : Database → Bool)
    (idVal : Int) (db : Database) (item_id : Int) (item_data : List (String × Value)) :
    (integrityOk (db ++ [instantiate cols idVal item_data]) = false →
      create_item cols integrityOk idVal db item_data =
        (db, CreateOutcome.integrityViolation) ∧
      create_endpoint cols integrityOk idVal db item_data = (db, Response.error 400)) ∧
    (integrityOk (db ++ [instantiate cols idVal item_data]) = true →
      create_item cols integrityOk idVal db item_data =
        (db ++ [instantiate cols idVal item_data],
         CreateOutcome.created (instantiate cols idVal item_data)) ∧
      create_endpoint cols integrityOk idVal db item_data =
        (db ++ [instantiate cols idVal item_data],
         Response.ok (to_dict (instantiate cols idVal item_data)))) ∧
    (∀ r, firstMatch (matchesActive item_id) db = some r →
      (integrityOk (updateFirst (matchesActive item_id)
          (fun s => applyUpdates s item_data) db) = false →
        update_item integrityOk db item_id item_data =
          (db, UpdateOutcome.integrityViolation) ∧
        update_endpoint integrityOk db item_id item_data = (db, Response.error 400)) ∧
      (integrityOk (updateFirst (matchesActive item_id)
          (fun s => applyUpdates s item_data) db) = true →
        update_item integrityOk db item_id item_data =
          (updateFirst (matchesActive item_id) (fun s => applyUpdates s item_data) db,
           UpdateOutcome.updated (applyUpdates r item_data)))) := by
  refine ⟨?_, ?_, ?_⟩
  · intro hok
    constructor
    · simp only [create_item, hok, Bool.false_eq_true, if_false]
    · simp only [create_endpoint, create_item, hok, Bool.false_eq_true, if_false]
  · intro hok
    constructor
    · simp only [create_item, hok, if_true]
    · simp only [create_endpoint, create_item, hok, if_true]
  · intro r hfm
    constructor
    · intro hok
      constructor
      · simp only [update_item, hfm, hok, Bool.false_eq_true, if_false]
      · simp only [update_endpoint, update_item, hfm, hok, Bool.false_eq_true, if_false]
    · intro hok
      simp only [update_item, hfm, hok, if_true]

/-- Witness for C4: a failing commit leaves the empty table empty with a 400
response; a succeeding commit appends the created row. -/
theorem integrity_rollback_and_commit_witness :
    ((fun _ => false : Database → Bool)
        ([] ++ [instantiate productColumns 1 []]) = false ∧
      create_endpoint productColumns (fun _ => false) 1 [] [] = ([], Response.error 400)) ∧
    ((fun _ => true : Database → Bool)
        ([] ++ [instantiate productColumns 1 []]) = true ∧
      create_item productColumns (fun _ => true) 1 [] [] =
        ([instantiate productColumns 1 []],
         CreateOutcome.created (instantiate productColumns 1 []))) := by
  have hf := integrity_rollback_and_commit productColumns (fun _ => false) 1 [] 1 []
  have ht := integrity_rollback_and_commit productColumns (fun _ => true) 1 [] 1 []
  exact ⟨⟨rfl, (hf.1 rfl).2⟩, ⟨rfl, by simpa using (ht.2.1 rfl).1⟩⟩

/-- C5: the list operation's pagination parameters default to skip = 0 and
limit = 100 at the CRUD level and at the generated list endpoint; for every
skip and limit it returns at most `limit` rows, all active, and its n-th row
is the (skip+n)-th active row of the table. -/
theorem pagination_defaults_and_window (db : Database) (skip limit : Nat) :
    crudDefaultSkip = 0 ∧ crudDefaultLimit = 100 ∧
    endpointDefaultSkip = 0 ∧ endpointDefaultLimit = 100 ∧
    (get_items db skip limit).length ≤ limit ∧
    (∀ r ∈ get_items db skip limit, rowActive r = true) ∧
    (∀ n, nthRow (get_items db skip limit) n =
      if n < limit then nthRow (db.filter rowActive) (skip + n) else none) ∧
    get_all_endpoint db skip limit =
      Response.ok ((get_items db skip limit).map to_dict) := by
  refine ⟨rfl, rfl, rfl, rfl, ?_, ?_, ?_, rfl⟩
  · exact List.length_take_le limit ((db.filter rowActive).drop skip)
  · intro r hr
    have h1 : r ∈ db.filter rowActive :=
      List.drop_subset _ _ (List.take_subset _ _ hr)
    exact (List.mem_filter.mp h1).2
  · intro n
    unfold get_items
    rw [nthRow_take, nthRow_drop]

/-- Witness for C5 on the sample table: both defaults are 0/100, the window
starting at the first active row is returned, and all returned rows are
active. -/
theorem pagination_defaults_and_window_witness :
    (get_items sampleDb 0 100).length ≤ 100 ∧
    nthRow (get_items sampleDb 0 100) 0 =
      (if 0 < 100 then nthRow (sampleDb.filter rowActive) (0 + 0) else none) ∧
    rowActive sampleRow = true := by
  have h := pagination_defaults_and_window sampleDb 0 100
  exact ⟨h.2.2.2.2.1, h.2.2.2.2.2.2.1 0, h.2.2.2.2.2.1 sampleRow (by decide)⟩

/-- C6: for every discovered model the route generator registers exactly
five endpoints bound to that model's CRUD closures — POST (create) and GET
(list) on the collection path, and GET, PUT, DELETE on the item path with an
`item_id` parameter — all under "/" followed by the lowercased model name;
`generate_crud_routes` hence registers five routes per discovered model. -/
theorem five_routes_per_model (model_name : String) (models : List String) :
    routesForModel model_name =
      [ ⟨"POST", "/" ++ lowerString model_name ++ "/", CrudOp.createOp, model_name⟩,
        ⟨"GET", "/" ++ lowerString model_name ++ "/" ++ idSegment, CrudOp.getOneOp, model_name⟩,
        ⟨"GET", "/" ++ lowerString model_name ++ "/", CrudOp.getAllOp, model_name⟩,
        ⟨"PUT", "/" ++ lowerString model_name ++ "/" ++ idSegment, CrudOp.updateOp, model_name⟩,
        ⟨"DELETE", "/" ++ lowerString model_name ++ "/" ++ idSegment, CrudOp.deleteOp,
          model_name⟩ ] ∧
    (routesForModel model_name).length = 5 ∧
    (∀ rt ∈ routesForModel model_name,
      ∃ rest, rt.path = ("/" ++ lowerString model_name) ++ rest) ∧
    (generate_crud_routes models).length = 5 * models.length := by
  refine ⟨by simp [routesForModel, String.append_assoc], rfl, ?_, ?_⟩
  · intro rt hrt
    simp only [routesForModel, List.mem_cons, List.not_mem_nil, or_false] at hrt
    rcases hrt with h | h | h | h | h <;> subst h
    · exact ⟨"/", rfl⟩
    · exact ⟨"/" ++ idSegment, by simp [String.append_assoc]⟩
    · exact ⟨"/", rfl⟩
    · exact ⟨"/" ++ idSegment, by simp [String.append_assoc]⟩
    · exact ⟨"/" ++ idSegment, by simp [String.append_assoc]⟩
  · induction models with
    | nil => rfl
    | cons m rest ih =>
      simp only [generate_crud_routes, List.flatMap_cons, List.length_append] at ih ⊢
      rw [ih]
      simp [routesForModel]
      ring

/-- Witness for C6: the concrete routes of the Product model. -/
theorem five_routes_per_model_witness :
    (routesForModel "Product").length = 5 ∧
    (∃ rest, (Route.mk "POST" "/product/" CrudOp.createOp "Product").path =
      ("/" ++ lowerString "Product") ++ rest) ∧
    (generate_crud_routes ["Product", "Offer"]).length = 5 * 2 := by
  have h := five_routes_per_model "Product" ["Product", "Offer"]
  refine ⟨h.2.1, ?_, h.2.2.2⟩
  exact h.2.2.1 (Route.mk "POST" "/product/" CrudOp.createOp "Product") (by decide)

/-- A non-`id` column always yields a derived field carrying its own name. -/
theorem deriveField_some (c : Column) (h : c.name ≠ "id") :
    ∃ fs, deriveField c = some (c.name, fs) := by
  unfold deriveField
  cases hn : c.nullable with
  | true => simp [hn, h]
  | false =>
    simp only [hn, Bool.false_and, Bool.false_eq_true, if_false]
    cases hd : c.defaultArg with
    | none => simp [h]
    | some d =>
      cases d with
      | none => simp
      | some v => simp

/-- A nullable non-`id` column derives to an Optional field with default
None. -/
theorem deriveField_nullable (c : Column) (hn : c.nullable = true) (hid : c.name ≠ "id") :
    deriveField c = some (c.name, ⟨true, pythonTypeOf c, FieldDefault.defNone⟩) := by
  simp [deriveField, hn, hid]

/-- A non-nullable non-`id` column without a default derives to a required
field. -/
theorem deriveField_required (c : Column) (hn : c.nullable = false)
    (hd : c.defaultArg = none) (hid : c.name ≠ "id") :
    deriveField c = some (c.name, ⟨false, pythonTypeOf c, FieldDefault.required⟩) := by
  simp [deriveField, hn, hd, hid]

/-- Every derived field keeps the column name and the column's Python type. -/
theorem deriveField_name_type (c : Column) (k : String) (fs : FieldSpec)
    (h : deriveField c = some (k, fs)) :
    k = c.name ∧ fs.baseType = pythonTypeOf c := by
  unfold deriveField at h
  split at h
  · simp only [Option.some.injEq, Prod.mk.injEq] at h
    exact ⟨h.1.symm, by rw [← h.2]⟩
  · split at h
    · simp only [Option.some.injEq, Prod.mk.injEq] at h
      exact ⟨h.1.symm, by rw [← h.2]⟩
    · simp only [Option.some.injEq, Prod.mk.injEq] at h
      exact ⟨h.1.symm, by rw [← h.2]⟩
    · split at h
      · cases h
      · simp only [Option.some.injEq, Prod.mk.injEq] at h
        exact ⟨h.1.symm, by rw [← h.2]⟩

/-- The derived schema's field names are exactly the non-excluded column
names, in table order. -/
theorem create_pydantic_model_keys (cols : List Column) :
    (create_pydantic_model cols baseExclude).map Prod.fst =
      (cols.filter (fun c => decide (c.name ∉ baseExclude))).map Column.name := by
  induction cols with
  | nil => rfl
  | cons c rest ih =>
    simp only [create_pydantic_model] at ih ⊢
    by_cases hmem : c.name ∈ baseExclude
    · have hd : decide (c.name ∉ baseExclude) = false := by simp [hmem]
      simp only [List.filterMap_cons, if_pos hmem, List.filter_cons, hd, Bool.false_eq_true,
        if_false]
      exact ih
    · have hid : c.name ≠ "id" := by
        intro he
        exact hmem (by rw [he]; decide)
      obtain ⟨fs, hfs⟩ := deriveField_some c hid
      have hd : decide (c.name ∉ baseExclude) = true := by simp [hmem]
      simp only [List.filterMap_cons, if_neg hmem, hfs, List.filter_cons, hd, if_true,
        List.map_cons]
      rw [ih]

/-- The excluded base-column names never appear among the derived schema's
fields. -/
theorem create_pydantic_model_excludes (cols : List Column) (k : String)
    (hk : k ∈ baseExclude) :
    k ∉ (create_pydantic_model cols baseExclude).map Prod.fst := by
  rw [create_pydantic_model_keys]
  intro hmem
  obtain ⟨c, hc, hname⟩ := List.mem_map.mp hmem
  have := List.of_mem_filter hc
  rw [hname] at this
  exact (of_decide_eq_true this) hk

/-- C7: the derived request-validation schema (used for both create and
update) has exactly one field per table column excluding id, created_at,
updated_at and is_active, in table order; each field's type is the column's
Python type; a nullable column becomes Optional with default None; a
non-nullable column without a default is required. -/
theorem schema_derivation_fields (cols : List Column)
    (hnd : (cols.map Column.name).Nodup) :
    (create_pydantic_model cols baseExclude).map Prod.fst =
      (cols.filter (fun c => decide (c.name ∉ baseExclude))).map Column.name ∧
    (∀ c ∈ cols, c.name ∉ baseExclude →
      ∃ fs, lookupKey c.name (create_pydantic_model cols baseExclude) = some fs ∧
        deriveField c = some (c.name, fs) ∧
        fs.baseType = pythonTypeOf c ∧
        (c.nullable = true →
          fs = ⟨true, pythonTypeOf c, FieldDefault.defNone⟩) ∧
        (c.nullable = false → c.defaultArg = none →
          fs = ⟨false, pythonTypeOf c, FieldDefault.required⟩)) := by
  have hkeys := create_pydantic_model_keys cols
  refine ⟨hkeys, ?_⟩
  intro c hc hmem
  have hid : c.name ≠ "id" := by
    intro he
    exact hmem (by rw [he]; decide)
  obtain ⟨fs, hfs⟩ := deriveField_some c hid
  have hnd2 : ((create_pydantic_model cols baseExclude).map Prod.fst).Nodup := by
    rw [hkeys]
    exact List.Nodup.sublist (List.Sublist.map Column.name (List.filter_sublist cols)) hnd
  have hin : (c.name, fs) ∈ create_pydantic_model cols baseExclude := by
    apply List.mem_filterMap.mpr
    exact ⟨c, hc, by simp [hmem, hfs]⟩
  refine ⟨fs, lookupKey_of_nodup_mem _ _ _ hnd2 hin, hfs,
    (deriveField_name_type c c.name fs hfs).2, ?_, ?_⟩
  · intro hn
    have := deriveField_nullable c hn hid
    rw [hfs] at this
    simp only [Option.some.injEq, Prod.mk.injEq] at this
    exact this.2
  · intro hn hd
    have := deriveField_required c hn hd hid
    rw [hfs] at this
    simp only [Option.some.injEq, Prod.mk.injEq] at this
    exact this.2

/-- Witness for C7 on the Product model's columns: the schema has exactly
the four model-specific fields, and `external_id` is a required int. -/
theorem schema_derivation_fields_witness :
    (create_pydantic_model productColumns baseExclude).map Prod.fst =
      ["external_id", "name", "label", "description"] ∧
    (∃ fs, lookupKey "external_id" (create_pydantic_model productColumns baseExclude) =
        some fs ∧
      deriveField (Column.mk "external_id" "int" true false none) = some ("external_id", fs) ∧
      fs.baseType = pythonTypeOf (Column.mk "external_id" "int" true false none) ∧
      ((Column.mk "external_id" "int" true false none).nullable = true →
        fs = ⟨true, pythonTypeOf (Column.mk "external_id" "int" true false none),
          FieldDefault.defNone⟩) ∧
      ((Column.mk "external_id" "int" true false none).nullable = false →
        (Column.mk "external_id" "int" true false none).defaultArg = none →
        fs = ⟨false, pythonTypeOf (Column.mk "external_id" "int" true false none),
          FieldDefault.required⟩)) := by
  have h := schema_derivation_fields productColumns (by decide)
  refine ⟨by decide, ?_⟩
  exact h.2 (Column.mk "external_id" "int" true false none) (by decide) (by decide)

/-- C8: the update loop never modifies the `id` field, even when the update
data contains an `id` key; keys that are `id` or that do not name an
existing attribute are silently ignored; under distinct keys exactly the
remaining keys are applied; and a successful `update_item` returns a row
still carrying the requested id. -/
theorem update_ignores_id_and_unknown_keys (r : Row) (item_data : List (String × Value))
    (integrityOk : Database → Bool) (db : Database) (item_id : Int) :
    lookupKey "id" (applyUpdates r item_data) = lookupKey "id" r ∧
    (∀ k, k ∉ item_data.map Prod.fst →
      lookupKey k (applyUpdates r item_data) = lookupKey k r) ∧
    (∀ k, hasattrRow r k = false →
      lookupKey k (applyUpdates r item_data) = lookupKey k r) ∧
    ((item_data.map Prod.fst).Nodup → ∀ k v, (k, v) ∈ item_data → k ≠ "id" →
      hasattrRow r k = true → lookupKey k (applyUpdates r item_data) = some v) ∧
    (∀ db2 r2, update_item integrityOk db item_id item_data =
        (db2, UpdateOutcome.updated r2) →
      rowId r2 = some (Value.vInt item_id)) := by
  refine ⟨applyUpdates_lookup_id r item_data, ?_, ?_, ?_, ?_⟩
  · intro k hk
    exact applyUpdates_lookup_not_mem r item_data k hk
  · intro k hk
    have h0 : lookupKey k r = none := by
      simpa [hasattrRow, Option.isSome_iff_exists] using hk
    rw [applyUpdates_lookup_none r item_data k h0, h0]
  · intro hnd k v hm hid hattr
    exact applyUpdates_lookup_applied r item_data k v hnd hm hid hattr
  · intro db2 r2 h
    cases hfm : firstMatch (matchesActive item_id) db with
    | none =>
      simp only [update_item, hfm, Prod.mk.injEq] at h
      cases h.2
    | some r' =>
      by_cases hok : integrityOk (updateFirst (matchesActive item_id)
          (fun s => applyUpdates s item_data) db) = true
      · simp only [update_item, hfm, hok, if_true, Prod.mk.injEq,
          UpdateOutcome.updated.injEq] at h
        have hrid : rowId r' = some (Value.vInt item_id) :=
          of_decide_eq_true (Bool.and_elim_left (firstMatch_some _ _ _ hfm).1)
        rw [← h.2, rowId, applyUpdates_lookup_id r' item_data]
        exact hrid
      · have hok' : integrityOk (updateFirst (matchesActive item_id)
            (fun s => applyUpdates s item_data) db) = false := by simpa using hok
        simp only [update_item, hfm, hok', Bool.false_eq_true, if_false,
          Prod.mk.injEq] at h
        cases h.2

/-- Witness for C8: updating the sample row with an `id` key, an unknown
key and a real field changes only the real field. -/
theorem update_ignores_id_and_unknown_keys_witness :
    lookupKey "id" (applyUpdates sampleRow
      [("id", Value.vInt 99), ("ghost", Value.vInt 5), ("name", Value.vStr "new")]) =
      lookupKey "id" sampleRow ∧
    lookupKey "ghost" (applyUpdates sampleRow
      [("id", Value.vInt 99), ("ghost", Value.vInt 5), ("name", Value.vStr "new")]) =
      lookupKey "ghost" sampleRow ∧
    lookupKey "name" (applyUpdates sampleRow
      [("id", Value.vInt 99), ("ghost", Value.vInt 5), ("name", Value.vStr "new")]) =
      some (Value.vStr "new") := by
  have h := update_ignores_id_and_unknown_keys sampleRow
    [("id", Value.vInt 99), ("ghost", Value.vInt 5), ("name", Value.vStr "new")]
    (fun _ => true) sampleDb 1
  refine ⟨h.1, h.2.2.1 "ghost" (by decide), ?_⟩
  exact h.2.2.2.1 (by decide) "name" (Value.vStr "new") (by decide) (by decide) (by decide)

/-- C9: delete is idempotent on state: deleting an id whose row is absent or
inactive returns False (the endpoint responds 404) and leaves the table
unchanged; and as long as no two rows carry the requested id (the primary
key is unique), a second delete of the same id returns False and leaves the
state after the first delete unchanged. -/
theorem delete_idempotent (db : Database) (item_id : Int) (model_name : String) :
    ((delete_item db item_id).2 = false → (delete_item db item_id).1 = db) ∧
    ((∀ s ∈ db, matchesActive item_id s = false) →
      delete_item db item_id = (db, false) ∧
      (delete_endpoint model_name db item_id).2 = Response.error 404) ∧
    (db.Pairwise (fun r s => sameId item_id r = false ∨ sameId item_id s = false) →
      delete_item (delete_item db item_id).1 item_id =
        ((delete_item db item_id).1, false)) := by
  refine ⟨?_, ?_, ?_⟩
  · intro h
    cases hfm : firstMatch (matchesActive item_id) db with
    | none => simp only [delete_item, hfm]
    | some r => simp [delete_item, hfm] at h
  · intro hall
    have hnone : firstMatch (matchesActive item_id) db = none :=
      (firstMatch_eq_none_iff _ _).mpr hall
    exact ⟨by simp only [delete_item, hnone], by simp only [delete_endpoint, delete_item, hnone]⟩
  · intro hpw
    cases hfm : firstMatch (matchesActive item_id) db with
    | none =>
      simp only [delete_item, hfm]
    | some r =>
      obtain ⟨hpr, pre, post, hdb, hpre, hup⟩ := firstMatch_some _ _ _ hfm
      have hdel1 : (delete_item db item_id).1 = pre ++ soft_delete r :: post := by
        simp only [delete_item, hfm]
        exact hup soft_delete
      have hsid : sameId item_id r = true := Bool.and_elim_left hpr
      have hpost : ∀ s ∈ post, sameId item_id s = false := by
        rw [hdb] at hpw
        have h2 := (List.pairwise_append.mp hpw).2.1
        have h3 := (List.pairwise_cons.mp h2).1
        intro s hs
        rcases h3 s hs with h | h
        · rw [hsid] at h
          cases h
        · exact h
      have hnone2 : firstMatch (matchesActive item_id)
          (pre ++ soft_delete r :: post) = none := by
        rw [firstMatch_eq_none_iff]
        intro s hs
        rcases List.mem_append.mp hs with h | h
        · exact hpre s h
        · rcases List.mem_cons.mp h with h | h
          · subst h
            apply matchesActive_false_of_inactive
            simp [rowActive, soft_delete, lookupKey_setattrRow_self]
          · rw [matchesActive_eq, hpost s h, Bool.false_and]
      rw [hdel1]
      simp only [delete_item, hnone2]

/-- Witness for C9: deleting id 1 twice in the sample table; the second
delete is a no-op, and deleting from a table with no active match responds
404. -/
theorem delete_idempotent_witness :
    (∀ s ∈ [sampleInactiveRow], matchesActive 2 s = false) ∧
    delete_item [sampleInactiveRow] 2 = ([sampleInactiveRow], false) ∧
    (delete_endpoint "Product" [sampleInactiveRow] 2).2 = Response.error 404 ∧
    delete_item (delete_item sampleDb 1).1 1 = ((delete_item sampleDb 1).1, false) := by
  have h1 := delete_idempotent [sampleInactiveRow] 2 "Product"
  have h2 := delete_idempotent sampleDb 1 "Product"
  have hone := h1.2.1 (by decide)
  exact ⟨by decide, hone.1, hone.2, h2.2.2 (by decide)⟩

/-- The keys of an instantiated row are exactly the column names. -/
theorem lookupKey_instantiate (cols : List Column) (idVal : Int)
    (item_data : List (String × Value)) (c : Column)
    (hnd : (cols.map Column.name).Nodup) (hc : c ∈ cols) :
    lookupKey c.name (instantiate cols idVal item_data) =
      some (columnValue c idVal item_data) := by
  apply lookupKey_of_nodup_mem
  · have : (instantiate cols idVal item_data).map Prod.fst = cols.map Column.name := by
      simp [instantiate, List.map_map, Function.comp]
    rw [this]
    exact hnd
  · exact List.mem_map.mpr ⟨c, hc, rfl⟩

/-- C10: since the create schema excludes `is_active` and the column default
is True, every newly created entity is active, and a get on the new item's
id immediately after a successful create returns exactly the created row. -/
theorem create_then_get_roundtrip (cols : List Column) (integrityOk : Database → Bool)
    (idVal : Int) (db : Database) (item_data : List (String × Value))
    (hnd : (cols.map Column.name).Nodup)
    (hidc : idColumn ∈ cols)
    (hact : isActiveColumn ∈ cols)
    (hdata : ∀ k ∈ item_data.map Prod.fst,
      k ∈ (create_pydantic_model cols baseExclude).map Prod.fst)
    (hfresh : ∀ s ∈ db, sameId idVal s = false)
    (hok : integrityOk (db ++ [instantiate cols idVal item_data]) = true) :
    create_item cols integrityOk idVal db item_data =
      (db ++ [instantiate cols idVal item_data],
       CreateOutcome.created (instantiate cols idVal item_data)) ∧
    rowActive (instantiate cols idVal item_data) = true ∧
    get_item (db ++ [instantiate cols idVal item_data]) idVal =
      some (instantiate cols idVal item_data) := by
  have hdata_act : lookupKey "is_active" item_data = none := by
    apply lookupKey_eq_none_of_not_mem
    intro hmem
    exact create_pydantic_model_excludes cols "is_active" (by decide) (hdata _ hmem)
  have hlook_act : lookupKey "is_active" (instantiate cols idVal item_data) =
      some (Value.vBool true) := by
    have h := lookupKey_instantiate cols idVal item_data isActiveColumn hnd hact
    simp only [isActiveColumn] at h
    rw [h]
    simp [columnValue, hdata_act]
  have hactive : rowActive (instantiate cols idVal item_data) = true := by
    simp [rowActive, hlook_act]
  have hlook_id : lookupKey "id" (instantiate cols idVal item_data) =
      some (Value.vInt idVal) := by
    have h := lookupKey_instantiate cols idVal item_data idColumn hnd hidc
    simp only [idColumn] at h
    rw [h]
    simp [columnValue]
  have hmatch : matchesActive idVal (instantiate cols idVal item_data) = true := by
    rw [matchesActive_eq]
    simp [sameId, rowId, hlook_id, hactive]
  refine ⟨?_, hactive, ?_⟩
  · simp only [create_item, hok, if_true]
  · unfold get_item
    rw [firstMatch_append_of_none _ db _ (fun s hs => by
      rw [matchesActive_eq, hfresh s hs, Bool.false_and])]
    simp [firstMatch, hmatch]

/-- Witness for C10: creating a product in the empty table with the four
schema fields, then reading it back by its fresh id. -/
theorem create_then_get_roundtrip_witness :
    rowActive (instantiate productColumns 1
      [("external_id", Value.vInt 7), ("name", Value.vStr "widget"),
       ("label", Value.vStr "A"), ("description", Value.vStr "d")]) = true ∧
    get_item ([] ++ [instantiate productColumns 1
      [("external_id", Value.vInt 7), ("name", Value.vStr "widget"),
       ("label", Value.vStr "A"), ("description", Value.vStr "d")]]) 1 =
      some (instantiate productColumns 1
        [("external_id", Value.vInt 7), ("name", Value.vStr "widget"),
         ("label", Value.vStr "A"), ("description", Value.vStr "d")]) := by
  have h := create_then_get_roundtrip productColumns (fun _ => true) 1 []
    [("external_id", Value.vInt 7), ("name", Value.vStr "widget"),
     ("label", Value.vStr "A"), ("description", Value.vStr "d")]
    (by decide) (by decide) (by decide) (by decide) (by decide) rfl
  exact ⟨h.2.1, h.2.2⟩

end Crud
